import Mathlib

/-!
Shallow embedding of `src/i2c_base.py`: an I2C device abstraction with a
generic message-queue variant (periphery-based, wrapped by a tenacity retry
loop around `read_bytes`), a Raspberry-Pi raw-file-descriptor variant, an
FT232H USB-bridge variant, and the platform selector in `I2CBase.configure`.

The opaque transport (periphery's `I2C.transfer`, the raw file handles, the
FT232H bridge) is modelled as an explicit stub parameter; transport-visible
actions (open / transfer / close / retry sleep) are recorded in a trace.
-/

namespace I2C

/-- A periphery `I2C.Message`: either a write of the given bytes, or a read
into a buffer of the given bytes (`read=True` in the source). -/
inductive Msg where
  | write (data : List Nat)
  | read (data : List Nat)
deriving DecidableEq, Repr

/-- The data bytes held by a message. -/
def msgData : Msg → List Nat
  | .write d => d
  | .read d => d

def isWriteMsg : Msg → Bool
  | .write _ => true
  | .read _ => false

def isReadMsg : Msg → Bool
  | .write _ => false
  | .read _ => true

/-- Number of write-messages in a pending queue. -/
def writeCount (q : List Msg) : Nat := q.countP isWriteMsg

/-- Number of read-messages in a pending queue. -/
def readCount (q : List Msg) : Nat := q.countP isReadMsg

/-- Python exception values arising in the embedded code.
`tryAgain ctx` is `tenacity.TryAgain` raised inside the `except I2CError`
handler, whose implicit exception context (`__context__`) is the caught
`I2CError`; `retryError e` is tenacity's `RetryError` wrapping the final
attempt's exception.  `typeErrorNotCallable` is the `TypeError` that Python
raises for `NotImplemented()` in the base class (the `NotImplemented`
constant is not callable); `notImplementedError` is the error the base class
would raise had it used `raise NotImplementedError()`. -/
inductive PyErr where
  | i2cError (details : Nat)
  | tryAgain (context : PyErr)
  | retryError (last : PyErr)
  | overflowError
  | typeErrorNotCallable
  | notImplementedError
deriving DecidableEq, Repr

/-- Tenacity's retry predicate in the source is
`retry_if_exception_type(tenacity.TryAgain)`: only `TryAgain` is retryable. -/
def isRetryableErr : PyErr → Bool
  | .tryAgain _ => true
  | _ => false

def exceptIsOk {e a : Type} : Except e a → Bool
  | .ok _ => true
  | .error _ => false

/-- Outcome of one `i2c.transfer` invocation of the opaque transport: either
an `I2CError` with some details, or success, in which case the transport
clocks in one byte per buffer position of the read message (`byteAt i` is the
byte delivered at position `i`). -/
inductive TransferOutcome where
  | fail (details : Nat)
  | success (byteAt : Nat → Nat)

/-- Transport-visible events of a call, in order. -/
inductive Ev where
  | openBus
  | transfer (msgs : List Msg)
  | closeBus
  | sleep (duration : ℚ)
deriving DecidableEq, Repr

def isTransferEv : Ev → Bool
  | .transfer _ => true
  | _ => false

def isSleepEv : Ev → Bool
  | .sleep _ => true
  | _ => false

def isOpenEv : Ev → Bool
  | .openBus => true
  | _ => false

def isCloseEv : Ev → Bool
  | .closeBus => true
  | _ => false

def transferCount (tr : List Ev) : Nat := tr.countP isTransferEv

def sleepCount (tr : List Ev) : Nat := tr.countP isSleepEv

def openCount (tr : List Ev) : Nat := tr.countP isOpenEv

def closeCount (tr : List Ev) : Nat := tr.countP isCloseEv

def evQueue : Ev → Option (List Msg)
  | .transfer ms => some ms
  | _ => none

/-- The message lists submitted to the transport, in order. -/
def transferredQueues (tr : List Ev) : List (List Msg) := tr.filterMap evQueue

/-- Result of a `read_bytes` call (or of one attempt of its body): the
returned value or raised exception, the final `self._msg` queue, and the
trace of transport-visible events. -/
structure ReadOut where
  result : Except PyErr (List Nat)
  queue : List Msg
  trace : List Ev
deriving Repr

/-- One execution of the body of `Generic_I2CDevice.read_bytes`
(src/i2c_base.py lines 38-51), given the transfer outcome the transport
produces for this attempt:
`i2c = I2C(self._bus)` (open); `self._msg.append(I2C.Message([0x00]*length,
read=True))`; `i2c.transfer(self._address, self._msg)`.  On `I2CError` the
just-appended read message is popped (restoring the queue) and
`tenacity.TryAgain` is raised — note no `i2c.close()` on this path.  On
success the handle is closed, the data of the last message (the read buffer,
filled by the transport) is captured, and the queue is cleared. -/
def Generic_read_bytes_attempt (outcome : TransferOutcome) (length : Nat)
    (q : List Msg) : ReadOut :=
  match outcome with
  | .success byteAt =>
      { result := .ok ((List.range length).map byteAt)
        queue := []
        trace := [Ev.openBus,
                  Ev.transfer (q ++ [Msg.read (List.replicate length 0)]),
                  Ev.closeBus] }
  | .fail d =>
      { result := .error (.tryAgain (.i2cError d))
        queue := q
        trace := [Ev.openBus,
                  Ev.transfer (q ++ [Msg.read (List.replicate length 0)])] }

/-- The tenacity retry loop around the body:
`@tenacity.retry(stop=stop_after_attempt(12),
retry=retry_if_exception_type(TryAgain), wait=wait_fixed(0.5))`.
`attemptNo` is tenacity's 1-based attempt number; `fuel` is the number of
retries still permitted after the current attempt (tenacity stops, raising
`RetryError` around the last exception, when a failed attempt's number
reaches 12; otherwise it sleeps 0.5 and retries).  The stub gives the
transport's outcome for each attempt number. -/
def retryGo (stub : Nat → TransferOutcome) (length attemptNo : Nat)
    (q : List Msg) : Nat → ReadOut
  | 0 =>
    let a := Generic_read_bytes_attempt (stub attemptNo) length q
    match a.result with
    | .ok _ => a
    | .error e => { a with result := .error (.retryError e) }
  | fuel + 1 =>
    let a := Generic_read_bytes_attempt (stub attemptNo) length q
    match a.result with
    | .ok _ => a
    | .error _ =>
      let rest := retryGo stub length (attemptNo + 1) a.queue fuel
      { rest with trace := a.trace ++ Ev.sleep (1/2) :: rest.trace }

/-- `Generic_I2CDevice.read_bytes` as seen by the caller: the retry-decorated
body, starting at attempt 1 with 11 retries remaining (12 total attempts). -/
def Generic_read_bytes (stub : Nat → TransferOutcome) (length : Nat)
    (q : List Msg) : ReadOut :=
  retryGo stub length 1 q 11

/-- A `register` argument: Python passes either an `int` or a byte sequence. -/
inductive Reg where
  | int (n : Int)
  | bytes (bs : List Nat)
deriving DecidableEq, Repr

/-- Python's `n.to_bytes(1, 'big')`: the single byte for `0 ≤ n ≤ 255`,
`OverflowError` otherwise (negative ints and ints above one byte both
raise `OverflowError`). -/
def toBytesBE1 (n : Int) : Except PyErr (List Nat) :=
  if 0 ≤ n ∧ n ≤ 255 then .ok [n.toNat] else .error .overflowError

/-- The register normalization done by `write_list`:
`if isinstance(register, int): register = register.to_bytes(1, 'big')`,
a byte sequence is used verbatim. -/
def regToBytes : Reg → Except PyErr (List Nat)
  | .int n => toBytesBE1 n
  | .bytes bs => .ok bs

/-- Result of a `write_list` call on the Generic variant: the new pending
queue (unchanged when an exception is raised before the assignment), the
raised exception if any, and the transport trace (always empty: the source
method performs no transport operation). -/
structure WriteOut where
  queue : List Msg
  err : Option PyErr
  trace : List Ev
deriving Repr, DecidableEq

/-- `Generic_I2CDevice.write_list` (src/i2c_base.py lines 27-33): normalizes
`register` (the encoding may raise, in which case `self._msg` is left
untouched) and replaces `self._msg` with the single write message; `data` is
unused by the source body; no transport call occurs. -/
def Generic_write_list (register : Reg) (data : List Nat) (q : List Msg) :
    WriteOut :=
  match regToBytes register with
  | .ok bs => { queue := [Msg.write bs], err := none, trace := [] }
  | .error e => { queue := q, err := some e, trace := [] }

/-- Result of `RaspberryPi_I2CDevice.write_list`: the log of byte strings
written to the write handle, and the value returned (`file.write` returns
the number of bytes written). -/
structure PiWriteOut where
  written : List (List Nat)
  result : Except PyErr Nat
deriving Repr

/-- `RaspberryPi_I2CDevice.write_list` (src/i2c_base.py lines 66-72): writes
the register bytes (an int is encoded as one big-endian byte) to the write
handle and returns the handle's return value; `data` is unused by the
source body. -/
def RaspberryPi_write_list (register : Reg) (data : List Nat)
    (written : List (List Nat)) : PiWriteOut :=
  match regToBytes register with
  | .ok bs => { written := written ++ [bs], result := .ok bs.length }
  | .error e => { written := written, result := .error e }

/-- `RaspberryPi_I2CDevice.read_bytes` (src/i2c_base.py lines 74-75):
`return self._read.read(length)` — it returns whatever the raw read handle
yields for a read of up to `length` bytes, with no length check.  The handle
is the opaque OS resource, modelled as a stub from requested length to the
bytes delivered. -/
def RaspberryPi_read_bytes (readHandle : Nat → List Nat) (length : Nat) :
    List Nat :=
  readHandle length

/-- `FT232H_I2CDevice.write_list`: delegates to the bridge's `writeList`. -/
def FT232H_write_list (writeListDelegate : Reg → List Nat → Except PyErr Unit)
    (register : Reg) (data : List Nat) : Except PyErr Unit :=
  writeListDelegate register data

/-- `FT232H_I2CDevice.read_bytes`: delegates to the bridge's `readBytes`. -/
def FT232H_read_bytes (readBytesDelegate : Nat → Except PyErr (List Nat))
    (length : Nat) : Except PyErr (List Nat) :=
  readBytesDelegate length

/-- `I2CDevice.write_list` in the base class executes
`raise NotImplemented()`: Python evaluates `NotImplemented()` first, and the
`NotImplemented` constant is not callable, so the statement raises
`TypeError` (not `NotImplementedError`).  No bus operation is performed. -/
def I2CDevice_write_list (register : Reg) (data : List Nat) :
    Except PyErr Unit :=
  .error .typeErrorNotCallable

/-- `I2CDevice.read_bytes` in the base class: same `raise NotImplemented()`
statement, hence the same immediate `TypeError`. -/
def I2CDevice_read_bytes (length : Nat) : Except PyErr (List Nat) :=
  .error .typeErrorNotCallable

/-- Value of a hexadecimal / decimal / octal / binary digit character, as
accepted by Python's `int(s, base)` for bases up to 16. -/
def digitVal (base : Nat) (c : Char) : Option Nat :=
  let v :=
    if '0' ≤ c ∧ c ≤ '9' then some (c.toNat - '0'.toNat)
    else if 'a' ≤ c ∧ c ≤ 'f' then some (c.toNat - 'a'.toNat + 10)
    else if 'A' ≤ c ∧ c ≤ 'F' then some (c.toNat - 'A'.toNat + 10)
    else none
  match v with
  | some d => if d < base then some d else none
  | none => none

def parseDigitsAux (base : Nat) : Nat → List Char → Option Nat
  | acc, [] => some acc
  | acc, c :: cs =>
    match digitVal base c with
    | none => none
    | some d => parseDigitsAux base (acc * base + d) cs

/-- Digit-string parsing: at least one digit, most significant first. -/
def parseDigits (base : Nat) (cs : List Char) : Option Nat :=
  match cs with
  | [] => none
  | _ => parseDigitsAux base 0 cs

/-- The base-`base` positional value of a digit string (specification-side
value of the literal, defined by place value rather than by the parser's
accumulator fold). -/
def digitsValue (base : Nat) : List Char → Nat
  | [] => 0
  | c :: cs => (digitVal base c).getD 0 * base ^ cs.length + digitsValue base cs

/-- The numeric-base prefixes recognized by Python's `int(s, 0)`: the
character following a leading `0` selects hexadecimal, octal or binary. -/
def prefixBase (c : Char) : Option Nat :=
  if c = 'x' ∨ c = 'X' then some 16
  else if c = 'o' ∨ c = 'O' then some 8
  else if c = 'b' ∨ c = 'B' then some 2
  else none

/-- Model of Python's `int(s, 0)` as used by `I2CBase.configure`
(`address = int(self.address(), 0)`): a recognized numeric-base prefix
(`0x`/`0X` hex, `0o`/`0O` octal, `0b`/`0B` binary) selects the base;
otherwise the literal is decimal, where a leading zero is only allowed for
an all-zero literal.  `none` models `ValueError`.  (Sign, surrounding
whitespace and digit-group underscores, which the claims never exercise,
are not modelled.) -/
def parseIntBase0 (s : String) : Option Int :=
  match s.data with
  | '0' :: c :: rest =>
    match prefixBase c with
    | some base => (parseDigits base rest).map Int.ofNat
    | none => if (c :: rest).all (fun x => x == '0') then some 0 else none
  | ds => (parseDigits 10 ds).map Int.ofNat

/-- The device adaptor constructed by `I2CBase.configure`.  The Generic
variant's constructor stores `"/dev/i2c-" + bus` and an empty pending
queue. -/
inductive Device where
  | raspberryPi (address : Int)
  | ft232h (address : Int)
  | generic (address : Int) (bus : String) (msg : List Msg)
  | base (address : Int)
deriving DecidableEq, Repr

/-- `I2CBase.configure` (src/i2c_base.py lines 117-134): parses the address
text with `int(_, 0)` and dispatches on the platform's enum value
(`raspberry_pi = 0`, `ft232h = 1`, `generic = 2`); any other value falls to
the warning branch, which constructs the non-functional base `I2CDevice`.
`none` models the `ValueError` escaping from `int`. -/
def I2CBase_configure (platformValue : Int) (addressText busText : String) :
    Option Device :=
  match parseIntBase0 addressText with
  | none => none
  | some address =>
    some (if platformValue = 0 then .raspberryPi address
      else if platformValue = 1 then .ft232h address
      else if platformValue = 2 then .generic address ("/dev/i2c-" ++ busText) []
      else .base address)

/-- One caller-level operation on a Generic device: a `write_list` call or a
`read_bytes` call (the latter carrying the transport behavior it meets). -/
inductive Op where
  | write (register : Reg) (data : List Nat)
  | read (stub : Nat → TransferOutcome) (length : Nat)

/-- Effect of one operation on the pending message queue. -/
def stepOp (q : List Msg) : Op → List Msg
  | .write r d => (Generic_write_list r d q).queue
  | .read stub n => (Generic_read_bytes stub n q).queue

/-- The pending queue after a sequence of operations. -/
def runOps : List Msg → List Op → List Msg
  | q, [] => q
  | q, op :: ops => runOps (stepOp q op) ops

/-- A transport stub that fails every attempt with `I2CError` details 0. -/
def alwaysFailStub : Nat → TransferOutcome := fun _ => .fail 0

/-- The stub of the spec's concrete scenario: succeeds on the first attempt
delivering bytes 1, 2, 3. -/
def demoStub : Nat → TransferOutcome :=
  fun _ => .success (fun i => [1, 2, 3].getD i 0)

/-- A raw read handle that delivers a single byte regardless of the
requested length — the short-read behavior POSIX permits for a raw
(unbuffered) device read. -/
def shortReadHandle : Nat → List Nat := fun _ => [9]

end I2C

namespace I2C

/-! ## Helper lemmas about the retry loop, the queue protocol and the parser -/

/-- Case analysis of the retry loop: a successful call returns a byte list of
exactly the requested length and clears the queue; a failing call raises and
leaves the queue exactly as it was when the call started. -/
theorem retryGo_cases (stub : Nat → TransferOutcome) (n : Nat) :
    ∀ (fuel a : Nat) (q : List Msg),
      ((∃ d, (retryGo stub n a q fuel).result = .ok d ∧ d.length = n)
          ∧ (retryGo stub n a q fuel).queue = [])
      ∨ ((∃ e, (retryGo stub n a q fuel).result = .error e)
          ∧ (retryGo stub n a q fuel).queue = q) := by
  intro fuel
  induction fuel with
  | zero =>
    intro a q
    cases hs : stub a with
    | success f =>
      left
      refine ⟨⟨(List.range n).map f, ?_, by simp⟩, ?_⟩ <;>
        simp [retryGo, Generic_read_bytes_attempt, hs]
    | fail d =>
      right
      refine ⟨⟨.retryError (.tryAgain (.i2cError d)), ?_⟩, ?_⟩ <;>
        simp [retryGo, Generic_read_bytes_attempt, hs]
  | succ fuel ih =>
    intro a q
    cases hs : stub a with
    | success f =>
      left
      refine ⟨⟨(List.range n).map f, ?_, by simp⟩, ?_⟩ <;>
        simp [retryGo, Generic_read_bytes_attempt, hs]
    | fail d =>
      have h2 := ih (a + 1) q
      simp only [retryGo, Generic_read_bytes_attempt, hs]
      exact h2

/-- Exact behavior of the retry loop against a transport failing every
attempt: the surfaced error is `RetryError` around the final attempt's
`TryAgain` (whose context is the final attempt's `I2CError`), the queue is
restored, there are `fuel + 1` transfer attempts each preceded by a fresh
open, no close at all, and `fuel` half-unit sleeps. -/
theorem retryGo_fail_all (details : Nat → Nat) (n : Nat) :
    ∀ (fuel a : Nat) (q : List Msg),
      (retryGo (fun i => .fail (details i)) n a q fuel).result
          = .error (.retryError (.tryAgain (.i2cError (details (a + fuel)))))
      ∧ (retryGo (fun i => .fail (details i)) n a q fuel).queue = q
      ∧ transferCount (retryGo (fun i => .fail (details i)) n a q fuel).trace = fuel + 1
      ∧ sleepCount (retryGo (fun i => .fail (details i)) n a q fuel).trace = fuel
      ∧ openCount (retryGo (fun i => .fail (details i)) n a q fuel).trace = fuel + 1
      ∧ closeCount (retryGo (fun i => .fail (details i)) n a q fuel).trace = 0
      ∧ (∀ t, Ev.sleep t ∈ (retryGo (fun i => .fail (details i)) n a q fuel).trace
            → t = 1/2) := by
  intro fuel
  induction fuel with
  | zero =>
    intro a q
    simp [retryGo, Generic_read_bytes_attempt, transferCount, sleepCount, openCount,
      closeCount, isTransferEv, isSleepEv, isOpenEv, isCloseEv, List.countP_cons,
      List.countP_nil]
  | succ fuel ih =>
    intro a q
    obtain ⟨hres, hq, htc, hsc, hoc, hcc, hsv⟩ := ih (a + 1) q
    have hshift : a + 1 + fuel = a + (fuel + 1) := by omega
    rw [hshift] at hres
    simp only [retryGo, Generic_read_bytes_attempt]
    refine ⟨hres, hq, ?_, ?_, ?_, ?_, ?_⟩
    · simp only [transferCount] at htc ⊢
      simp [List.countP_append, List.countP_cons, isTransferEv, htc]
    · simp only [sleepCount] at hsc ⊢
      simp [List.countP_append, List.countP_cons, isSleepEv, hsc]
    · simp only [openCount] at hoc ⊢
      simp [List.countP_append, List.countP_cons, isOpenEv, hoc]
    · simp only [closeCount] at hcc ⊢
      simp [List.countP_append, List.countP_cons, isCloseEv, hcc]
    · intro t ht
      rcases List.mem_append.mp ht with h | h
      · simp at h
      · rcases List.mem_cons.mp h with h2 | h2
        · exact Ev.sleep.inj h2
        · exact hsv t h2

/-- Exact behavior of the retry loop when the transport fails the first `j`
attempts (counted from attempt number `a`) and succeeds on attempt `a + j`:
the successful data is returned, the queue is cleared, and the transport
sees `j + 1` transfers, `j` sleeps and a single close. -/
theorem retryGo_succ (stub : Nat → TransferOutcome) (byteAt : Nat → Nat) (n : Nat) :
    ∀ (j fuel a : Nat) (q : List Msg),
      j ≤ fuel →
      (∀ i, a ≤ i → i < a + j → ∃ d, stub i = .fail d) →
      stub (a + j) = .success byteAt →
      (retryGo stub n a q fuel).result = .ok ((List.range n).map byteAt)
      ∧ (retryGo stub n a q fuel).queue = []
      ∧ transferCount (retryGo stub n a q fuel).trace = j + 1
      ∧ sleepCount (retryGo stub n a q fuel).trace = j
      ∧ openCount (retryGo stub n a q fuel).trace = j + 1
      ∧ closeCount (retryGo stub n a q fuel).trace = 1 := by
  intro j
  induction j with
  | zero =>
    intro fuel a q hle hfail hsucc
    rw [Nat.add_zero] at hsucc
    cases fuel with
    | zero =>
      simp [retryGo, Generic_read_bytes_attempt, hsucc, transferCount, sleepCount,
        openCount, closeCount, isTransferEv, isSleepEv, isOpenEv, isCloseEv,
        List.countP_cons, List.countP_nil]
    | succ fuel =>
      simp [retryGo, Generic_read_bytes_attempt, hsucc, transferCount, sleepCount,
        openCount, closeCount, isTransferEv, isSleepEv, isOpenEv, isCloseEv,
        List.countP_cons, List.countP_nil]
  | succ j ih =>
    intro fuel a q hle hfail hsucc
    obtain ⟨d, hd⟩ := hfail a (Nat.le_refl a) (by omega)
    cases fuel with
    | zero => omega
    | succ fuel =>
      have hsucc2 : stub (a + 1 + j) = .success byteAt := by
        have hsh : a + 1 + j = a + (j + 1) := by omega
        rw [hsh]
        exact hsucc
      have hfail2 : ∀ i, a + 1 ≤ i → i < a + 1 + j → ∃ d2, stub i = .fail d2 := by
        intro i h1 h2
        exact hfail i (by omega) (by omega)
      obtain ⟨hres, hq, htc, hsc, hoc, hcc⟩ :=
        ih fuel (a + 1) q (by omega) hfail2 hsucc2
      simp only [retryGo, Generic_read_bytes_attempt, hd]
      refine ⟨hres, hq, ?_, ?_, ?_, ?_⟩
      · simp only [transferCount] at htc ⊢
        simp [List.countP_append, List.countP_cons, isTransferEv, htc]
      · simp only [sleepCount] at hsc ⊢
        simp [List.countP_append, List.countP_cons, isSleepEv, hsc]
      · simp only [openCount] at hoc ⊢
        simp [List.countP_append, List.countP_cons, isOpenEv, hoc]
      · simp only [closeCount] at hcc ⊢
        simp [List.countP_append, List.countP_cons, isCloseEv, hcc]

/-- Every message list submitted to the transport during a `read_bytes` call
is the initial queue with exactly the one freshly appended read buffer, and
at least one transfer is attempted. -/
theorem retryGo_transferred (stub : Nat → TransferOutcome) (n : Nat) :
    ∀ (fuel a : Nat) (q : List Msg),
      (∀ ms ∈ transferredQueues (retryGo stub n a q fuel).trace,
        ms = q ++ [Msg.read (List.replicate n 0)])
      ∧ transferredQueues (retryGo stub n a q fuel).trace ≠ [] := by
  intro fuel
  induction fuel with
  | zero =>
    intro a q
    cases hs : stub a <;>
      simp [retryGo, Generic_read_bytes_attempt, hs, transferredQueues, evQueue]
  | succ fuel ih =>
    intro a q
    cases hs : stub a with
    | success f =>
      simp [retryGo, Generic_read_bytes_attempt, hs, transferredQueues, evQueue]
    | fail d =>
      obtain ⟨hall, hne⟩ := ih (a + 1) q
      simp only [retryGo, Generic_read_bytes_attempt, hs]
      constructor
      · intro ms hms
        simp only [transferredQueues, evQueue, List.filterMap_append,
          List.filterMap_cons, List.filterMap_nil] at hms
        simp only [List.mem_append, List.mem_cons] at hms
        rcases hms with (h | h) | h
        · exact h
        · simp at h
        · exact hall ms h
      · simp [transferredQueues, evQueue, List.filterMap_append, List.filterMap_cons]

/-- Handle accounting of the retry loop: every transfer attempt is preceded
by a fresh open, and a close happens exactly when the call succeeds. -/
theorem retryGo_handles (stub : Nat → TransferOutcome) (n : Nat) :
    ∀ (fuel a : Nat) (q : List Msg),
      openCount (retryGo stub n a q fuel).trace
          = transferCount (retryGo stub n a q fuel).trace
      ∧ closeCount (retryGo stub n a q fuel).trace
          = (if exceptIsOk (retryGo stub n a q fuel).result then 1 else 0)
      ∧ 1 ≤ openCount (retryGo stub n a q fuel).trace := by
  intro fuel
  induction fuel with
  | zero =>
    intro a q
    cases hs : stub a <;>
      simp [retryGo, Generic_read_bytes_attempt, hs, exceptIsOk, transferCount,
        openCount, closeCount, isTransferEv, isOpenEv, isCloseEv,
        List.countP_cons, List.countP_nil]
  | succ fuel ih =>
    intro a q
    cases hs : stub a with
    | success f =>
      simp [retryGo, Generic_read_bytes_attempt, hs, exceptIsOk, transferCount,
        openCount, closeCount, isTransferEv, isOpenEv, isCloseEv,
        List.countP_cons, List.countP_nil]
    | fail d =>
      obtain ⟨hoc, hcc, hpos⟩ := ih (a + 1) q
      simp only [retryGo, Generic_read_bytes_attempt, hs]
      refine ⟨?_, ?_, ?_⟩
      · simp only [openCount, transferCount] at hoc ⊢
        simp [List.countP_append, List.countP_cons, isOpenEv, isTransferEv, hoc]
      · simp only [closeCount] at hcc ⊢
        simp [List.countP_append, List.countP_cons, isCloseEv, hcc]
      · simp only [openCount] at hpos ⊢
        simp [List.countP_append, List.countP_cons, isOpenEv]

/-- One operation preserves the queue invariant: at most one write-message,
no read-message between calls. -/
theorem stepOp_wf (q : List Msg) (op : Op)
    (h : writeCount q ≤ 1 ∧ readCount q = 0) :
    writeCount (stepOp q op) ≤ 1 ∧ readCount (stepOp q op) = 0 := by
  cases op with
  | write r d =>
    cases hr : regToBytes r with
    | ok bs =>
      simp [stepOp, Generic_write_list, hr, writeCount, readCount, isWriteMsg,
        isReadMsg, List.countP_cons, List.countP_nil]
    | error e =>
      simpa [stepOp, Generic_write_list, hr] using h
  | read stub nn =>
    rcases retryGo_cases stub nn 11 1 q with ⟨_, hq⟩ | ⟨_, hq⟩
    · simp [stepOp, Generic_read_bytes, hq, writeCount, readCount, List.countP_nil]
    · simp only [stepOp, Generic_read_bytes, hq]
      exact h

/-- The queue invariant holds after any operation sequence. -/
theorem runOps_wf : ∀ (ops : List Op) (q : List Msg),
    writeCount q ≤ 1 ∧ readCount q = 0 →
    writeCount (runOps q ops) ≤ 1 ∧ readCount (runOps q ops) = 0 := by
  intro ops
  induction ops with
  | nil =>
    intro q h
    simpa [runOps] using h
  | cons op ops ih =>
    intro q h
    simp only [runOps]
    exact ih _ (stepOp_wf q op h)

/-- The accumulator fold of the digit parser computes the positional value
of the digit string. -/
theorem parseDigitsAux_eq (base : Nat) :
    ∀ (cs : List Char) (acc : Nat),
      (∀ c ∈ cs, (digitVal base c).isSome) →
      parseDigitsAux base acc cs
          = some (acc * base ^ cs.length + digitsValue base cs) := by
  intro cs
  induction cs with
  | nil =>
    intro acc h
    simp [parseDigitsAux, digitsValue]
  | cons c cs ih =>
    intro acc h
    obtain ⟨d, hd⟩ := Option.isSome_iff_exists.mp (h c (List.mem_cons_self c cs))
    simp only [parseDigitsAux, hd]
    rw [ih (acc * base + d) (fun x hx => h x (List.mem_cons_of_mem c hx))]
    congr 1
    simp [digitsValue, hd, List.length_cons, pow_succ]
    ring

/-- Parsing a literal with a recognized numeric-base prefix yields exactly
the positional value of its digit string. -/
theorem parseIntBase0_prefixed (p : Char) (base : Nat) (hp : prefixBase p = some base) :
    ∀ cs : List Char, cs ≠ [] → (∀ c ∈ cs, (digitVal base c).isSome) →
      parseIntBase0 (String.mk ('0' :: p :: cs))
          = some (Int.ofNat (digitsValue base cs)) := by
  intro cs hne hdig
  cases cs with
  | nil => exact absurd rfl hne
  | cons c rest =>
    simp only [parseIntBase0, hp, parseDigits]
    rw [parseDigitsAux_eq base (c :: rest) 0 hdig]
    simp

end I2C

namespace I2C

/-! ## Claim theorems -/

/-- C1 counterexample: against a transport that fails every attempt with a
transient error, `read_bytes` performs 12 failed transfer attempts but only
11 inter-attempt delays — tenacity checks its stop condition before sleeping,
so the final failed attempt is not followed by a 0.5 delay as the claim
states. -/
theorem C1_counterexample :
    transferCount (Generic_read_bytes alwaysFailStub 1 []).trace = 12
    ∧ exceptIsOk (Generic_read_bytes alwaysFailStub 1 []).result = false
    ∧ sleepCount (Generic_read_bytes alwaysFailStub 1 []).trace = 11
    ∧ sleepCount (Generic_read_bytes alwaysFailStub 1 []).trace
        ≠ transferCount (Generic_read_bytes alwaysFailStub 1 []).trace := by
  refine ⟨by decide, by decide, by decide, by decide⟩

/-- C1 (amended): for every k ≤ 11, if the transport fails the first k
transfer attempts with a transient error and then succeeds, `read_bytes`
returns the successful data and the transport observes exactly k+1 transfer
invocations, with a 0.5 delay after each of the k failed attempts; if the
transport fails transiently on every attempt, `read_bytes` fails after
exactly 12 transfer invocations, with a fixed 0.5-time-unit delay after each
failed attempt except the final one (11 delays). -/
theorem C1_retry_protocol (k n : Nat) (details byteAt : Nat → Nat)
    (q : List Msg) (hk : k ≤ 11) :
    (Generic_read_bytes
        (fun i => if i ≤ k then .fail (details i) else .success byteAt) n q).result
        = .ok ((List.range n).map byteAt)
    ∧ transferCount (Generic_read_bytes
        (fun i => if i ≤ k then .fail (details i) else .success byteAt) n q).trace
        = k + 1
    ∧ sleepCount (Generic_read_bytes
        (fun i => if i ≤ k then .fail (details i) else .success byteAt) n q).trace
        = k
    ∧ (Generic_read_bytes (fun i => .fail (details i)) n q).result
        = .error (.retryError (.tryAgain (.i2cError (details 12))))
    ∧ transferCount (Generic_read_bytes (fun i => .fail (details i)) n q).trace = 12
    ∧ sleepCount (Generic_read_bytes (fun i => .fail (details i)) n q).trace = 11
    ∧ (∀ t, Ev.sleep t ∈ (Generic_read_bytes (fun i => .fail (details i)) n q).trace
        → t = 1/2) := by
  have hfail : ∀ i, 1 ≤ i → i < 1 + k →
      ∃ d, (fun i => if i ≤ k then TransferOutcome.fail (details i)
            else TransferOutcome.success byteAt) i = .fail d := by
    intro i h1 h2
    exact ⟨details i, by simp [Nat.lt_succ_iff.mp (by omega : i < k + 1)]⟩
  have hs : (fun i => if i ≤ k then TransferOutcome.fail (details i)
      else TransferOutcome.success byteAt) (1 + k) = .success byteAt := by
    have hnot : ¬ (1 + k ≤ k) := by omega
    simp [hnot]
  obtain ⟨h1, _, h3, h4, _, _⟩ :=
    retryGo_succ (fun i => if i ≤ k then .fail (details i) else .success byteAt)
      byteAt n k 11 1 q hk hfail hs
  obtain ⟨g1, _, g3, g4, _, _, g7⟩ := retryGo_fail_all details n 11 1 q
  exact ⟨h1, h3, h4, g1, g3, g4, g7⟩

/-- C1 witness: with a stub failing attempts 1 and 2 and succeeding from
attempt 3 on, the call succeeds with the transport's data. -/
theorem C1_retry_protocol_witness :
    2 ≤ 11
    ∧ (Generic_read_bytes
        (fun i => if i ≤ 2 then .fail i else .success (fun j => j + 1)) 2 []).result
        = .ok ((List.range 2).map (fun j => j + 1)) :=
  ⟨by decide,
   (C1_retry_protocol 2 2 (fun i => i) (fun j => j + 1) [] (by decide)).1⟩

end I2C

namespace I2C

/-- C2: queue protocol of the Generic variant: (i) `read_bytes n` with no
prior `write_register` submits, on every transfer attempt, exactly one
read-message of length `n` and nothing else, and at least one transfer
happens; (ii) after any `read_bytes` call the queue holds no read-message —
it is empty on success, and on an exhausted-retry failure it is exactly the
original queue (at most the original single write-message); (iii) every
queue submitted during a read holds at most one write-message and exactly
one read-message, and across any operation sequence started from a fresh
device the queue between calls holds at most one write-message and no
read-message. -/
theorem C2_queue_protocol (stub : Nat → TransferOutcome) (n : Nat)
    (q : List Msg) (ops : List Op)
    (hwf : writeCount q ≤ 1 ∧ readCount q = 0) :
    (∀ ms ∈ transferredQueues (Generic_read_bytes stub n []).trace,
        ms = [Msg.read (List.replicate n 0)])
    ∧ transferredQueues (Generic_read_bytes stub n []).trace ≠ []
    ∧ (exceptIsOk (Generic_read_bytes stub n q).result = true
        → (Generic_read_bytes stub n q).queue = [])
    ∧ (exceptIsOk (Generic_read_bytes stub n q).result = false
        → (Generic_read_bytes stub n q).queue = q)
    ∧ readCount (Generic_read_bytes stub n q).queue = 0
    ∧ (∀ ms ∈ transferredQueues (Generic_read_bytes stub n q).trace,
        writeCount ms ≤ 1 ∧ readCount ms = 1)
    ∧ writeCount (runOps [] ops) ≤ 1
    ∧ readCount (runOps [] ops) = 0 := by
  obtain ⟨hall0, hne0⟩ := retryGo_transferred stub n 11 1 []
  obtain ⟨hall, _⟩ := retryGo_transferred stub n 11 1 q
  obtain ⟨hrun1, hrun2⟩ := runOps_wf ops [] (by simp [writeCount, readCount])
  refine ⟨?_, hne0, ?_, ?_, ?_, ?_, hrun1, hrun2⟩
  · intro ms hms
    simpa using hall0 ms hms
  · intro hok
    rcases retryGo_cases stub n 11 1 q with ⟨_, hq⟩ | ⟨⟨e, he⟩, _⟩
    · exact hq
    · exact absurd hok (by simp [Generic_read_bytes, he, exceptIsOk])
  · intro herr
    rcases retryGo_cases stub n 11 1 q with ⟨⟨d, hd, _⟩, _⟩ | ⟨_, hq⟩
    · exact absurd herr (by simp [Generic_read_bytes, hd, exceptIsOk])
    · exact hq
  · rcases retryGo_cases stub n 11 1 q with ⟨_, hq⟩ | ⟨_, hq⟩
    · simp [Generic_read_bytes, hq, readCount, List.countP_nil]
    · simp only [Generic_read_bytes, hq]
      exact hwf.2
  · intro ms hms
    rw [hall ms hms]
    constructor
    · simp only [writeCount] at hwf ⊢
      simp [List.countP_append, List.countP_cons, isWriteMsg]
      omega
    · simp only [readCount] at hwf ⊢
      simp [List.countP_append, List.countP_cons, isReadMsg, hwf.2]

/-- C2 witness: from the queue staged by a prior `write_register`, an
exhausted-retry `read_bytes` leaves exactly the original write-message. -/
theorem C2_queue_protocol_witness :
    (writeCount [Msg.write [0]] ≤ 1 ∧ readCount [Msg.write [0]] = 0)
    ∧ (Generic_read_bytes alwaysFailStub 2 [Msg.write [0]]).queue
        = [Msg.write [0]] :=
  ⟨by decide,
   (C2_queue_protocol alwaysFailStub 2 [Msg.write [0]] [] (by decide)).2.2.2.1
     (by decide)⟩

/-- C3: when the retry budget is exhausted the caller sees a fatal
(non-retryable) `RetryError` wrapping the last attempt's `TryAgain`, whose
exception context is the last transient `I2CError` — so the surfaced error
carries the last transient error's details, depends only on the last
attempt's failure details, and transient errors of earlier attempts are
never visible: any run with a successful attempt within the budget returns
data and surfaces no error at all. -/
theorem C3_last_error_surfaced (n k : Nat) (q : List Msg)
    (details details2 byteAt : Nat → Nat) (hk : k ≤ 11)
    (hlast : details2 12 = details 12) :
    (Generic_read_bytes (fun i => .fail (details i)) n q).result
        = .error (.retryError (.tryAgain (.i2cError (details 12))))
    ∧ isRetryableErr (.retryError (.tryAgain (.i2cError (details 12)))) = false
    ∧ (Generic_read_bytes (fun i => .fail (details2 i)) n q).result
        = (Generic_read_bytes (fun i => .fail (details i)) n q).result
    ∧ exceptIsOk (Generic_read_bytes
        (fun i => if i ≤ k then .fail (details i) else .success byteAt) n q).result
        = true := by
  obtain ⟨h1, _⟩ := retryGo_fail_all details n 11 1 q
  obtain ⟨h2, _⟩ := retryGo_fail_all details2 n 11 1 q
  have hfail : ∀ i, 1 ≤ i → i < 1 + k →
      ∃ d, (fun i => if i ≤ k then TransferOutcome.fail (details i)
            else TransferOutcome.success byteAt) i = .fail d := by
    intro i hi1 hi2
    exact ⟨details i, by simp [(by omega : i ≤ k)]⟩
  have hs : (fun i => if i ≤ k then TransferOutcome.fail (details i)
      else TransferOutcome.success byteAt) (1 + k) = .success byteAt := by
    have hnot : ¬ (1 + k ≤ k) := by omega
    simp [hnot]
  obtain ⟨hok, _⟩ :=
    retryGo_succ (fun i => if i ≤ k then .fail (details i) else .success byteAt)
      byteAt n k 11 1 q hk hfail hs
  refine ⟨h1, rfl, ?_, ?_⟩
  · rw [Generic_read_bytes, Generic_read_bytes, h1, h2, hlast]
  · simp [Generic_read_bytes, hok, exceptIsOk]

/-- C3 witness: concrete instantiation with per-attempt details `i` on both
stubs (so the last-attempt details agree) and success threshold k = 2. -/
theorem C3_last_error_surfaced_witness :
    2 ≤ 11
    ∧ (fun i : Nat => i) 12 = (fun i : Nat => i) 12
    ∧ (Generic_read_bytes (fun i => .fail ((fun i : Nat => i) i)) 1 []).result
        = .error (.retryError (.tryAgain (.i2cError ((fun i : Nat => i) 12)))) :=
  ⟨by decide, rfl,
   (C3_last_error_surfaced 1 2 [] (fun i => i) (fun i => i) (fun j => j)
     (by decide) rfl).1⟩

end I2C

namespace I2C

/-- C4 counterexample: `write_register(5, b"\x01\x02\x03")` on the Generic
variant stages only the register byte `5`; none of the data bytes appears in
any staged message, so the claim that the data bytes are staged or written
is false at this input. -/
theorem C4_counterexample :
    (Generic_write_list (.int 5) [1, 2, 3] []).queue = [Msg.write [5]]
    ∧ (∀ m ∈ (Generic_write_list (.int 5) [1, 2, 3] []).queue,
        ¬ (1 ∈ msgData m) ∧ ¬ (2 ∈ msgData m) ∧ ¬ (3 ∈ msgData m)) := by
  refine ⟨by decide, by decide⟩

/-- C4 (amended): `write_register(register, data)` stages or performs a
write of the register bytes only (an integer register encoded as one
big-endian byte): the `data` argument is ignored by the Generic and
Raspberry-Pi variants (only the FT232H variant forwards it to the bridge);
the Generic variant returns nothing, while the Raspberry-Pi variant returns
the write handle's return value (the byte count written). -/
theorem C4_register_only_write (r : Reg) (d d2 : List Nat) (q : List Msg)
    (w : List (List Nat)) (bs : List Nat) (hr : regToBytes r = .ok bs) :
    Generic_write_list r d q = Generic_write_list r d2 q
    ∧ RaspberryPi_write_list r d w = RaspberryPi_write_list r d2 w
    ∧ (Generic_write_list r d q).queue = [Msg.write bs]
    ∧ (Generic_write_list r d q).err = none
    ∧ (RaspberryPi_write_list r d w).written = w ++ [bs]
    ∧ (RaspberryPi_write_list r d w).result = .ok bs.length := by
  refine ⟨rfl, rfl, ?_, ?_, ?_, ?_⟩ <;>
    simp [Generic_write_list, RaspberryPi_write_list, hr]

/-- C4 witness: a byte-sequence register [7] with two different data
arguments. -/
theorem C4_register_only_write_witness :
    regToBytes (.bytes [7]) = .ok [7]
    ∧ (Generic_write_list (.bytes [7]) [1] []).queue = [Msg.write [7]] :=
  ⟨rfl, (C4_register_only_write (.bytes [7]) [1] [2] [] [] [7] rfl).2.2.1⟩

/-- C5 counterexample: with a transport failing every attempt, the
`read_bytes` call opens 12 fresh bus handles and closes none of them before
the call completes, so the claim that the handle is closed within the call
on the transport-failure path is false at this input. -/
theorem C5_counterexample :
    openCount (Generic_read_bytes alwaysFailStub 1 []).trace = 12
    ∧ closeCount (Generic_read_bytes alwaysFailStub 1 []).trace = 0 := by
  refine ⟨by decide, by decide⟩

/-- C5 (amended): every `read_bytes` call opens at least one fresh Bus
Handle — one per transfer attempt — and an explicit close happens exactly
when the call succeeds (one close, of the successful attempt's handle); on
a transport-failure attempt the code performs no explicit close within the
call, leaving the handle to garbage collection. -/
theorem C5_handle_scope (stub : Nat → TransferOutcome) (n : Nat) (q : List Msg) :
    1 ≤ openCount (Generic_read_bytes stub n q).trace
    ∧ openCount (Generic_read_bytes stub n q).trace
        = transferCount (Generic_read_bytes stub n q).trace
    ∧ closeCount (Generic_read_bytes stub n q).trace
        = (if exceptIsOk (Generic_read_bytes stub n q).result then 1 else 0) := by
  obtain ⟨h1, h2, h3⟩ := retryGo_handles stub n 11 1 q
  exact ⟨h3, h1, h2⟩

/-- C6: for every register input, `write_register` on the Generic variant
performs no transport operation (no open, transfer or close); a byte
sequence is staged unchanged and an in-range integer register is encoded as
its one big-endian byte, and in both cases the Pending Message Queue is
replaced by exactly that single write-message, discarding any previous
contents. -/
theorem C6_write_register_no_transport (register : Reg) (data : List Nat)
    (q : List Msg) (m : Int) (h0 : 0 ≤ m) (h255 : m ≤ 255) :
    (Generic_write_list register data q).trace = []
    ∧ (∀ bs, Generic_write_list (.bytes bs) data q
        = { queue := [Msg.write bs], err := none, trace := [] })
    ∧ Generic_write_list (.int m) data q
        = { queue := [Msg.write [m.toNat]], err := none, trace := [] } := by
  refine ⟨?_, ?_, ?_⟩
  · cases hr : regToBytes register <;> simp [Generic_write_list, hr]
  · intro bs
    simp [Generic_write_list, regToBytes]
  · simp [Generic_write_list, regToBytes, toBytesBE1, h0, h255]

/-- C6 witness: register 0x40 with arbitrary data and a non-empty previous
queue. -/
theorem C6_write_register_no_transport_witness :
    (0 : Int) ≤ 64 ∧ (64 : Int) ≤ 255
    ∧ Generic_write_list (.int 64) [9] [Msg.read [1, 2]]
        = { queue := [Msg.write [64]], err := none, trace := [] } :=
  ⟨by decide, by decide,
   (C6_write_register_no_transport (.int 64) [9] [Msg.read [1, 2]] 64
     (by decide) (by decide)).2.2⟩

end I2C

namespace I2C

/-- C7 counterexample: the Raspberry-Pi `read_bytes(3)` forwards whatever
the raw read handle delivers, and with a handle that short-reads one byte
the call returns 1 byte without failing — so "never returns fewer than n
bytes" is false for this variant at this input. -/
theorem C7_counterexample :
    RaspberryPi_read_bytes shortReadHandle 3 = [9]
    ∧ (RaspberryPi_read_bytes shortReadHandle 3).length = 1
    ∧ (1 : Nat) ≠ 3 := by
  refine ⟨rfl, rfl, by decide⟩

/-- C7 (amended): the Generic variant's `read_bytes(n)` either returns
exactly `n` bytes or fails entirely — a successful result always has length
`n`; the Raspberry-Pi variant returns exactly the byte sequence its raw
read handle yields, which has length `length` precisely when the handle
delivers that many bytes (the code performs no short-read check). -/
theorem C7_exact_or_fail (stub : Nat → TransferOutcome) (n : Nat)
    (q : List Msg) (h : Nat → List Nat) (hh : (h n).length = n) :
    (∀ d, (Generic_read_bytes stub n q).result = .ok d → d.length = n)
    ∧ (RaspberryPi_read_bytes h n).length = n := by
  constructor
  · intro d hd
    simp only [Generic_read_bytes] at hd
    rcases retryGo_cases stub n 11 1 q with ⟨⟨d2, hres, hlen⟩, _⟩ | ⟨⟨e, he⟩, _⟩
    · rw [hd] at hres
      cases hres
      exact hlen
    · rw [hd] at he
      cases he
  · exact hh

/-- C7 witness: a well-behaved handle delivering exactly the requested
number of bytes. -/
theorem C7_exact_or_fail_witness :
    ((fun m => List.replicate m 0) 3).length = 3
    ∧ (RaspberryPi_read_bytes (fun m => List.replicate m 0) 3).length = 3 :=
  ⟨by decide,
   (C7_exact_or_fail alwaysFailStub 3 [] (fun m => List.replicate m 0)
     (by decide)).2⟩

/-- C8 evaluation at the failing input: an out-of-range platform value makes
`configure` construct the base `I2CDevice`, and invoking either operation on
it raises immediately with no bus operation — but the raised error is
Python's `TypeError` (the statement `raise NotImplemented()` calls the
non-callable `NotImplemented` constant), not the "not implemented" error the
claim describes. -/
theorem C8_unknown_platform_eval :
    I2CBase_configure 7 "0x40" "1" = some (.base 64)
    ∧ I2CDevice_write_list (.int 0) [] = .error .typeErrorNotCallable
    ∧ I2CDevice_read_bytes 3 = .error .typeErrorNotCallable
    ∧ PyErr.typeErrorNotCallable ≠ PyErr.notImplementedError := by
  refine ⟨by decide, rfl, rfl, by decide⟩

/-- C9: a textual address with a recognized numeric-base prefix parses to
the literal's positional value; and the spec's concrete scenario — address
text "0x40", platform generic, bus "1", `write_register(0x00, b"")` then
`read_bytes(3)` against a transport succeeding on the first attempt with
bytes 1, 2, 3 — returns those bytes with exactly one transfer invocation. -/
theorem C9_address_parse_and_scenario (p : Char) (base : Nat) (cs : List Char)
    (hp : prefixBase p = some base) (hne : cs ≠ [])
    (hdig : ∀ c ∈ cs, (digitVal base c).isSome) :
    parseIntBase0 (String.mk ('0' :: p :: cs))
        = some (Int.ofNat (digitsValue base cs))
    ∧ I2CBase_configure 2 "0x40" "1" = some (.generic 64 "/dev/i2c-1" [])
    ∧ (Generic_write_list (.int 0) [] []).queue = [Msg.write [0]]
    ∧ (Generic_read_bytes demoStub 3 [Msg.write [0]]).result = .ok [1, 2, 3]
    ∧ transferCount (Generic_read_bytes demoStub 3 [Msg.write [0]]).trace = 1 := by
  refine ⟨parseIntBase0_prefixed p base hp cs hne hdig, by decide, by decide,
    rfl, by decide⟩

/-- C9 witness: the address text "0x40" parses to 64. -/
theorem C9_address_parse_and_scenario_witness :
    prefixBase 'x' = some 16
    ∧ (['4', '0'] : List Char) ≠ []
    ∧ (∀ c ∈ (['4', '0'] : List Char), (digitVal 16 c).isSome)
    ∧ parseIntBase0 (String.mk ('0' :: 'x' :: ['4', '0']))
        = some (Int.ofNat (digitsValue 16 ['4', '0'])) :=
  ⟨by decide, by decide, by decide,
   (C9_address_parse_and_scenario 'x' 16 ['4', '0'] (by decide) (by decide)
     (by decide)).1⟩

/-- C10: an integer register outside [0, 255] makes the one-byte big-endian
encoding raise `OverflowError` before the queue assignment, so
`write_register` fails atomically with the Pending Message Queue left
exactly as it was; for an in-range integer register the staged write-message
holds exactly one byte. -/
theorem C10_out_of_range_register_atomic (m m2 : Int) (data : List Nat)
    (q : List Msg) (hout : m < 0 ∨ 255 < m) (h0 : 0 ≤ m2) (h255 : m2 ≤ 255) :
    Generic_write_list (.int m) data q
        = { queue := q, err := some .overflowError, trace := [] }
    ∧ (Generic_write_list (.int m2) data q).queue = [Msg.write [m2.toNat]]
    ∧ [m2.toNat].length = 1 := by
  refine ⟨?_, ?_, rfl⟩
  · have hnot : ¬ (0 ≤ m ∧ m ≤ 255) := by omega
    simp [Generic_write_list, regToBytes, toBytesBE1, hnot]
  · simp [Generic_write_list, regToBytes, toBytesBE1, h0, h255]

/-- C10 witness: register 300 fails atomically over a staged queue;
register 7 stages the single byte 7. -/
theorem C10_out_of_range_register_atomic_witness :
    ((300 : Int) < 0 ∨ (255 : Int) < 300) ∧ (0 : Int) ≤ 7 ∧ (7 : Int) ≤ 255
    ∧ Generic_write_list (.int 300) [1] [Msg.write [5]]
        = { queue := [Msg.write [5]], err := some .overflowError, trace := [] } :=
  ⟨by decide, by decide, by decide,
   (C10_out_of_range_register_atomic 300 7 [1] [Msg.write [5]]
     (by decide) (by decide) (by decide)).1⟩

end I2C
